import Mathlib

/-!
Verification of the metadata-extraction-and-template-materialization engine of
the controller-bootstrap repository, shallowly embedded from the Go sources.

The embedding covers:
- the version-selection logic of the model locator
  (getAPIVersions, firstAPIVersion, findModelPath);
- the resource-name derivation over an operation catalog (getCRDNames and the
  package-level accumulation performed by modelAPI in apiutil.go);
- the template render loop of generateTemplates in generate.go, including the
  dry-run behaviour, the existing-controller allow-list, the destination-path
  computation of writeFiles and the overwrite semantics of ioutil.WriteFile.

Go strings are modelled as Lean strings; the Go standard-library calls used by
the code (strings.HasPrefix, strings.TrimPrefix, strings.HasSuffix,
strings.TrimSuffix, strings.Contains, strings.TrimSpace, sort.Strings,
filepath.Join) are given explicit executable models below, operating on the
underlying character lists so that every definition evaluates by kernel
reduction.  The external pluralization library (gertd/go-pluralize) is an
opaque collaborator: its IsSingular check enters the embedding as an explicit
function parameter.
-/

/-! ## Models of the Go standard-library string functions used by the code -/

/-- Model of strings.HasPrefix: pre is a prefix of s. -/
def goHasPrefix (s pre : String) : Bool :=
  pre.data.isPrefixOf s.data

/-- Model of strings.TrimPrefix: drop pre from the front of s when present,
otherwise return s unchanged. -/
def goTrimPrefix (s pre : String) : String :=
  if goHasPrefix s pre then String.mk (s.data.drop pre.data.length) else s

/-- Model of strings.HasSuffix: suf is a suffix of s. -/
def goHasSuffix (s suf : String) : Bool :=
  suf.data.isSuffixOf s.data

/-- Model of strings.TrimSuffix: drop suf from the end of s when present,
otherwise return s unchanged. -/
def goTrimSuffix (s suf : String) : String :=
  if goHasSuffix s suf then String.mk (s.data.take (s.data.length - suf.data.length)) else s

/-- Substring occurrence on character lists: sub occurs somewhere inside l
(the empty list occurs in every list). -/
def hasSubList : List Char → List Char → Bool
  | l, sub =>
    if sub.isPrefixOf l then true
    else
      match l with
      | [] => false
      | _ :: rest => hasSubList rest sub

/-- Model of strings.Contains: sub occurs somewhere inside s. -/
def goContains (s sub : String) : Bool :=
  hasSubList s.data sub.data

/-- Byte-wise lexicographic order on character lists, mirroring the ordering
Go uses to compare strings (UTF-8 byte order coincides with code-point
order). -/
def lexLe : List Char → List Char → Bool
  | [], _ => true
  | _ :: _, [] => false
  | a :: as, b :: bs => if a = b then lexLe as bs else decide (a < b)

/-- Lexicographic order on strings, as compared by sort.Strings. -/
def strLe (a b : String) : Bool :=
  lexLe a.data b.data

/-- Insert a string into a list, before the first element it compares
less-or-equal to. -/
def insertStr (s : String) : List String → List String
  | [] => [s]
  | t :: ts => if strLe s t then s :: t :: ts else t :: insertStr s ts

/-- Model of sort.Strings: sort a list of strings into increasing
lexicographic order (insertion sort realizes the sort.Strings contract). -/
def sortStrings : List String → List String
  | [] => []
  | s :: ss => insertStr s (sortStrings ss)

/-- Whitespace test used by the model of strings.TrimSpace. -/
def isSpaceChar (c : Char) : Bool :=
  c = ' ' || c = '\t' || c = '\n' || c = '\r'

/-- Model of strings.TrimSpace: remove leading and trailing whitespace. -/
def trimSpace (s : String) : String :=
  String.mk (((s.data.dropWhile isSpaceChar).reverse.dropWhile isSpaceChar).reverse)

/-- Model of filepath.Join for the argument shapes occurring in this code:
components are already clean, and the second component either starts with a
path separator (as produced by strings.TrimPrefix of a path prefix) or is a
plain relative name. -/
def joinPath (a b : String) : String :=
  if a = "" then b
  else if b = "" then a
  else if goHasPrefix b "/" then a ++ b
  else a ++ "/" ++ b

namespace SDKHelper

/-!
Embedding of the model-locator logic of the AWSSDKHelper
(src/unnamed/part_004): getAPIVersions, firstAPIVersion, findModelPath, and
the resource-name derivation getCRDNames.
-/

/-- One entry of the directory listing returned by ioutil.ReadDir for the
service model directory: a name plus whether the entry is a directory. -/
structure DirEntry where
  name : String
  isDir : Bool
deriving DecidableEq, Repr

/-- The version-collection loop of getAPIVersions: walk the directory entries
in listing order, fail at the first entry that is not a directory, and collect
the directory names. -/
def collectVersions : List DirEntry → Except String (List String)
  | [] => Except.ok []
  | e :: rest =>
    if e.isDir then
      (collectVersions rest).map (fun vs => e.name :: vs)
    else
      Except.error ("found " ++ e.name ++
        ": expected to find only directories in api model directory but found non-directory")

/-- Model of getAPIVersions: the list of version directory names found in a
service model directory; an error when an entry is not a directory or when no
version directory exists. -/
def getAPIVersions (entries : List DirEntry) : Except String (List String) :=
  match collectVersions entries with
  | Except.error e => Except.error e
  | Except.ok versions =>
    if versions = [] then
      Except.error "no valid version directories found"
    else
      Except.ok versions

/-- Model of firstAPIVersion: sort the version names (sort.Strings) and return
the first one. -/
def firstAPIVersion (entries : List DirEntry) : Except String String :=
  match getAPIVersions entries with
  | Except.error e => Except.error e
  | Except.ok versions =>
    match sortStrings versions with
    | [] => Except.error "index out of range"
    | v :: _ => Except.ok v

/-- The fixed model file path built by findModelPath:
sdkDir/models/apis/serviceModelName/version/api-2.json. -/
def modelFilePath (sdkDir serviceModelName version : String) : String :=
  joinPath (joinPath (joinPath (joinPath (joinPath sdkDir "models") "apis")
    serviceModelName) version) "api-2.json"

/-- Model of findModelPath: when no api version is set yet, select the first
api version from the directory listing of the service model directory, then
build the conventional api-2.json path without checking existence. -/
def findModelPath (sdkDir serviceModelName apiVersion : String)
    (entries : List DirEntry) : Except String String :=
  if apiVersion = "" then
    match firstAPIVersion entries with
    | Except.error e => Except.error e
    | Except.ok v => Except.ok (modelFilePath sdkDir serviceModelName v)
  else
    Except.ok (modelFilePath sdkDir serviceModelName apiVersion)

/-- Model of getCRDNames: walk the operation catalog in order, skip operations
with the CreateBatch prefix, keep operations with the Create prefix, strip
that prefix, and keep the remainder when the pluralization check classifies it
as singular.  The check itself lives in the external go-pluralize library and
is passed in as the isSingular parameter. -/
def getCRDNames (isSingular : String → Bool) : List String → List String
  | [] => []
  | opName :: rest =>
    if goHasPrefix opName "CreateBatch" then
      getCRDNames isSingular rest
    else if goHasPrefix opName "Create" then
      let resName := goTrimPrefix opName "Create"
      if isSingular resName then
        resName :: getCRDNames isSingular rest
      else
        getCRDNames isSingular rest
    else
      getCRDNames isSingular rest

end SDKHelper

namespace ApiUtil

/-!
Embedding of the package-level accumulation performed by the modelAPI loop in
src/cmd/controller-bootstrap/command/apiutil.go (and by the getCRDNames
variants of src/unnamed/part_002 and part_003): derived resource names are
appended to a package-level slice (svcResources, resp. crdNames) that nothing
resets, so the slice value threads through successive derivations as explicit
state here.
-/

/-- The appending loop of modelAPI: fold the operation catalog over the
current value of the package-level slice, appending each kept resource name. -/
def appendResources (isSingular : String → Bool)
    (svcResources : List String) : List String → List String
  | [] => svcResources
  | opName :: rest =>
    if goHasPrefix opName "CreateBatch" then
      appendResources isSingular svcResources rest
    else if goHasPrefix opName "Create" then
      let resName := goTrimPrefix opName "Create"
      if isSingular resName then
        appendResources isSingular (svcResources ++ [resName]) rest
      else
        appendResources isSingular svcResources rest
    else
      appendResources isSingular svcResources rest

end ApiUtil

namespace Generate

/-!
Embedding of the template render loop of generateTemplates and of writeFiles
in src/cmd/controller-bootstrap/command/generate.go.

Template files are modelled as pre-parsed token lists (the template content is
opaque input; text/template variable substitution is the only semantics the
templates use): a token is either literal text or a reference to a context
field.  Executing a template against the metaVars context concatenates the
pieces and fails at the first reference to a field the context does not
define, exactly as template.Execute fails on an undefined struct field.

Filesystem effects are modelled as an explicit action trace: a dry-run print
of a rendered file (the per-file header names the template file) or a write of
rendered content to a destination path.  The directory bookkeeping of
ensureDir carries no content and is modelled as always succeeding; the loop
aborts at the first template execution error, returning the actions emitted so
far, mirroring the early return in the Go loop.
-/

/-- One token of a parsed template: literal text or a field reference. -/
inductive Tok where
  | lit (s : String)
  | var (field : String)
deriving DecidableEq, Repr

/-- A template file: its path under the template directory plus its parsed
content. -/
structure TemplateFile where
  path : String
  toks : List Tok
deriving DecidableEq, Repr

/-- The metaVars render context of generate.go. -/
structure metaVars where
  ServiceID : String
  ServicePackageName : String
  ServiceAbbreviation : String
  ServiceFullName : String
  ServiceResources : List String
  AWSSDKGoVersion : String
  RuntimeVersion : String
deriving DecidableEq, Repr

/-- The string rendering of the ServiceResources slice field. -/
def renderResources (l : List String) : String :=
  "[" ++ String.intercalate " " l ++ "]"

/-- Field lookup on the metaVars context: the fields of the Go struct and
nothing else. -/
def lookupMetaVars (v : metaVars) : String → Option String
  | "ServiceID" => some v.ServiceID
  | "ServicePackageName" => some v.ServicePackageName
  | "ServiceAbbreviation" => some v.ServiceAbbreviation
  | "ServiceFullName" => some v.ServiceFullName
  | "ServiceResources" => some (renderResources v.ServiceResources)
  | "AWSSDKGoVersion" => some v.AWSSDKGoVersion
  | "RuntimeVersion" => some v.RuntimeVersion
  | _ => none

/-- Model of template Execute: substitute each field reference, failing at the
first reference to an undefined field with the name of that field. -/
def executeTemplate (lookup : String → Option String) : List Tok → Except String String
  | [] => Except.ok ""
  | Tok.lit s :: rest => (executeTemplate lookup rest).map (fun t => s ++ t)
  | Tok.var f :: rest =>
    match lookup f with
    | some val => (executeTemplate lookup rest).map (fun t => val ++ t)
    | none => Except.error f

/-- One observable effect of the render loop: a dry-run print (per-file header
naming the template file, then the trimmed rendered body), or a filesystem
write of rendered content to a destination path. -/
inductive Action where
  | print (file body : String)
  | write (path content : String)
deriving DecidableEq, Repr

/-- The run options consumed by generateTemplates, as bound by the persistent
flags in root.go (the output flag defaults to the empty string). -/
structure RenderConfig where
  optOutputPath : String
  optDryRun : Bool
  optExistingController : Bool
deriving DecidableEq, Repr

/-- The updateFile test of the existing-controller branch: README.md template
files and OWNERS files. -/
def isUpdateFile (file : String) : Bool :=
  goHasSuffix file "README.md.tpl" || goContains file "OWNERS"

/-- The destination path computed by writeFiles: strip the template directory
prefix and the .tpl suffix from the template path, then join the result onto
the output path. -/
def writeDest (cd outputPath file : String) : String :=
  joinPath outputPath (goTrimSuffix (goTrimPrefix file (joinPath cd "template")) ".tpl")

/-- The per-file branch of the render loop in generateTemplates: which action
(if any) the file produces once rendered.  In the existing-controller mode
only allow-listed files are printed (dry-run) or written; otherwise every file
is printed (dry-run) or written. -/
def fileActions (cfg : RenderConfig) (cd : String) (f : TemplateFile)
    (buf : String) : List Action :=
  if cfg.optExistingController then
    if cfg.optDryRun && isUpdateFile f.path then
      [Action.print f.path (trimSpace buf)]
    else if isUpdateFile f.path then
      [Action.write (writeDest cd cfg.optOutputPath f.path) buf]
    else
      []
  else
    if cfg.optDryRun then
      [Action.print f.path (trimSpace buf)]
    else
      [Action.write (writeDest cd cfg.optOutputPath f.path) buf]

/-- Model of the render loop of generateTemplates in generate.go: render each
enumerated template file against the context in order, abort with the
template error at the first failing file (no further file is processed), and
otherwise emit the print or write action the mode prescribes.  The function
returns the emitted action trace together with the error, if any, that ended
the run.  The Go function performs no validation of the output path. -/
def generateTemplates (cfg : RenderConfig) (vars : metaVars) (cd : String) :
    List TemplateFile → List Action × Option String
  | [] => ([], none)
  | f :: rest =>
    match executeTemplate (lookupMetaVars vars) f.toks with
    | Except.error e => ([], some (f.path ++ ": undefined field " ++ e))
    | Except.ok buf =>
      let res := generateTemplates cfg vars cd rest
      (fileActions cfg cd f buf ++ res.1, res.2)

/-- The writes contained in an action trace, in order. -/
def writesOf : List Action → List (String × String)
  | [] => []
  | Action.print _ _ :: rest => writesOf rest
  | Action.write p c :: rest => (p, c) :: writesOf rest

/-- A filesystem, as the contents found at each path. -/
def FS : Type := String → Option String

/-- Model of ioutil.WriteFile: unconditionally replace the content at the
destination path. -/
def writeFile (fs : FS) (p c : String) : FS :=
  fun q => if q = p then some c else fs q

/-- Apply a list of writes to a filesystem in order. -/
def applyWrites (fs : FS) : List (String × String) → FS
  | [] => fs
  | (p, c) :: rest => applyWrites (writeFile fs p c) rest

/-- The last write a list of writes performs at a path, if any. -/
def lastWrite (p : String) : List (String × String) → Option String
  | [] => none
  | (q, c) :: rest =>
    match lastWrite p rest with
    | some c₂ => some c₂
    | none => if p = q then some c else none

/-- The mode-selection test of the render loop: in the existing-controller
mode only allow-listed files are considered, otherwise every file is. -/
def modeSelected (cfg : RenderConfig) (f : TemplateFile) : Bool :=
  if cfg.optExistingController then isUpdateFile f.path else true

/-- The print trace a fully successful dry run emits: one print per
mode-selected file, in catalog order, with the rendered trimmed body. -/
def printsFor (cfg : RenderConfig) (vars : metaVars) : List TemplateFile → List Action
  | [] => []
  | f :: rest =>
    match executeTemplate (lookupMetaVars vars) f.toks with
    | Except.error _ => printsFor cfg vars rest
    | Except.ok buf =>
      if modeSelected cfg f then
        Action.print f.path (trimSpace buf) :: printsFor cfg vars rest
      else
        printsFor cfg vars rest

end Generate

/-! ## Helper lemmas on the string models -/

theorem string_mk_data (s : String) : String.mk s.data = s := rfl

theorem goHasPrefix_decomp {s pre : String} (h : goHasPrefix s pre = true) :
    String.mk (pre.data ++ (goTrimPrefix s pre).data) = s := by
  obtain ⟨t, ht⟩ := List.isPrefixOf_iff_prefix.mp h
  have hdrop : s.data.drop pre.data.length = t := by
    rw [← ht, List.drop_left]
  simp only [goTrimPrefix, h, if_true, hdrop]
  rw [ht]

theorem lexLe_refl : ∀ l : List Char, lexLe l l = true
  | [] => rfl
  | a :: as => by simp [lexLe, lexLe_refl as]

theorem strLe_refl (s : String) : strLe s s = true :=
  lexLe_refl s.data

theorem lexLe_total : ∀ as bs : List Char, lexLe as bs = true ∨ lexLe bs as = true
  | [], _ => Or.inl rfl
  | _ :: _, [] => Or.inr rfl
  | a :: as, b :: bs => by
    by_cases hab : a = b
    · subst hab
      rcases lexLe_total as bs with h | h
      · exact Or.inl (by simp [lexLe, h])
      · exact Or.inr (by simp [lexLe, h])
    · rcases lt_trichotomy a b with hlt | heq | hgt
      · exact Or.inl (by simp [lexLe, hab, hlt])
      · exact absurd heq hab
      · exact Or.inr (by simp [lexLe, Ne.symm hab, hgt])

theorem strLe_total (a b : String) : strLe a b = true ∨ strLe b a = true :=
  lexLe_total a.data b.data

theorem lexLe_trans : ∀ as bs cs : List Char,
    lexLe as bs = true → lexLe bs cs = true → lexLe as cs = true
  | [], _, _ => by intro _ _; rfl
  | _ :: _, [], _ => by intro h _; exact absurd h (by simp [lexLe])
  | _ :: _, _ :: _, [] => by intro _ h; exact absurd h (by simp [lexLe])
  | a :: as, b :: bs, c :: cs => by
    intro h₁ h₂
    by_cases hab : a = b <;> by_cases hbc : b = c
    · subst hab; subst hbc
      simp only [lexLe, if_pos rfl] at h₁ h₂ ⊢
      exact lexLe_trans as bs cs h₁ h₂
    · subst hab
      simp [lexLe, hbc] at h₂
      simp [lexLe, ne_of_lt h₂, h₂]
    · subst hbc
      simp [lexLe, hab] at h₁
      simp [lexLe, ne_of_lt h₁, h₁]
    · simp [lexLe, hab] at h₁
      simp [lexLe, hbc] at h₂
      have hac := lt_trans h₁ h₂
      simp [lexLe, ne_of_lt hac, hac]

theorem strLe_trans {a b c : String} (h₁ : strLe a b = true) (h₂ : strLe b c = true) :
    strLe a c = true :=
  lexLe_trans a.data b.data c.data h₁ h₂

theorem mem_insertStr (a s : String) : ∀ l : List String,
    (a ∈ insertStr s l ↔ a = s ∨ a ∈ l)
  | [] => by simp [insertStr]
  | t :: ts => by
    by_cases h : strLe s t = true
    · simp [insertStr, h]
    · simp [insertStr, h, mem_insertStr a s ts]
      tauto

theorem mem_sortStrings (a : String) : ∀ l : List String, (a ∈ sortStrings l ↔ a ∈ l)
  | [] => Iff.rfl
  | s :: ss => by
    simp [sortStrings, mem_insertStr a s (sortStrings ss), mem_sortStrings a ss]

theorem length_insertStr (s : String) : ∀ l : List String,
    (insertStr s l).length = l.length + 1
  | [] => rfl
  | t :: ts => by
    by_cases h : strLe s t = true
    · simp [insertStr, h]
    · simp [insertStr, h, length_insertStr s ts]

theorem length_sortStrings : ∀ l : List String, (sortStrings l).length = l.length
  | [] => rfl
  | s :: ss => by simp [sortStrings, length_insertStr, length_sortStrings ss]

theorem pairwise_insertStr (s : String) : ∀ l : List String,
    l.Pairwise (fun a b => strLe a b = true) →
    (insertStr s l).Pairwise (fun a b => strLe a b = true)
  | [], _ => by simp [insertStr]
  | t :: ts, hl => by
    obtain ⟨ht, hts⟩ := List.pairwise_cons.mp hl
    by_cases h : strLe s t = true
    · rw [insertStr, if_pos h]
      refine List.pairwise_cons.mpr ⟨?_, hl⟩
      intro x hx
      rcases List.mem_cons.mp hx with hxe | hx₂
      · rw [hxe]; exact h
      · exact strLe_trans h (ht x hx₂)
    · rw [insertStr, if_neg h]
      refine List.pairwise_cons.mpr ⟨?_, pairwise_insertStr s ts hts⟩
      intro x hx
      rcases (mem_insertStr x s ts).mp hx with hxe | hx₂
      · rw [hxe]
        rcases strLe_total s t with h₂ | h₂
        · exact absurd h₂ h
        · exact h₂
      · exact ht x hx₂

theorem sortStrings_pairwise : ∀ l : List String,
    (sortStrings l).Pairwise (fun a b => strLe a b = true)
  | [] => List.Pairwise.nil
  | s :: ss => pairwise_insertStr s (sortStrings ss) (sortStrings_pairwise ss)

/-! ## Helper lemmas on the resource-name derivation -/

theorem create_op_eq {op r : String}
    (hcp : goHasPrefix op "Create" = true)
    (htrim : goTrimPrefix op "Create" = r) :
    op = String.mk ("Create".data ++ r.data) := by
  have h := goHasPrefix_decomp hcp
  rw [htrim] at h
  exact h.symm

theorem mem_getCRDNames (σ : String → Bool) (r : String) : ∀ ops : List String,
    (r ∈ SDKHelper.getCRDNames σ ops ↔
      ∃ op, op ∈ ops ∧ goHasPrefix op "CreateBatch" = false
        ∧ goHasPrefix op "Create" = true ∧ σ r = true ∧ goTrimPrefix op "Create" = r)
  | [] => by simp [SDKHelper.getCRDNames]
  | opName :: rest => by
    simp only [SDKHelper.getCRDNames]
    by_cases hb : goHasPrefix opName "CreateBatch" = true
    · simp only [hb, if_true]
      rw [mem_getCRDNames σ r rest]
      constructor
      · rintro ⟨op, hop, h1, h2, h3, h4⟩
        exact ⟨op, List.mem_cons_of_mem _ hop, h1, h2, h3, h4⟩
      · rintro ⟨op, hop, h1, h2, h3, h4⟩
        rcases List.mem_cons.mp hop with hoe | hop₂
        · rw [hoe] at h1; rw [h1] at hb; cases hb
        · exact ⟨op, hop₂, h1, h2, h3, h4⟩
    · have hb' : goHasPrefix opName "CreateBatch" = false := by
        cases hv : goHasPrefix opName "CreateBatch"
        · rfl
        · exact absurd hv hb
      by_cases hc : goHasPrefix opName "Create" = true
      · by_cases hσ : σ (goTrimPrefix opName "Create") = true
        · simp only [hb, hc, hσ, if_true, if_false, Bool.false_eq_true]
          constructor
          · intro hmem
            rcases List.mem_cons.mp hmem with hre | hmem₂
            · refine ⟨opName, List.mem_cons_self opName rest, hb', hc, ?_, hre.symm⟩
              rw [hre]; exact hσ
            · obtain ⟨op, hop, h1, h2, h3, h4⟩ := (mem_getCRDNames σ r rest).mp hmem₂
              exact ⟨op, List.mem_cons_of_mem _ hop, h1, h2, h3, h4⟩
          · rintro ⟨op, hop, h1, h2, h3, h4⟩
            rcases List.mem_cons.mp hop with hoe | hop₂
            · exact List.mem_cons.mpr (Or.inl (by rw [← h4, hoe]))
            · exact List.mem_cons.mpr
                (Or.inr ((mem_getCRDNames σ r rest).mpr ⟨op, hop₂, h1, h2, h3, h4⟩))
        · simp only [hb, hc, hσ, if_true, if_false, Bool.false_eq_true]
          rw [mem_getCRDNames σ r rest]
          constructor
          · rintro ⟨op, hop, h1, h2, h3, h4⟩
            exact ⟨op, List.mem_cons_of_mem _ hop, h1, h2, h3, h4⟩
          · rintro ⟨op, hop, h1, h2, h3, h4⟩
            rcases List.mem_cons.mp hop with hoe | hop₂
            · exfalso; apply hσ; rw [hoe] at h4; rw [h4]; exact h3
            · exact ⟨op, hop₂, h1, h2, h3, h4⟩
      · have hc' : goHasPrefix opName "Create" = false := by
          cases hv : goHasPrefix opName "Create"
          · rfl
          · exact absurd hv hc
        simp only [hb, hc, if_false, Bool.false_eq_true]
        rw [mem_getCRDNames σ r rest]
        constructor
        · rintro ⟨op, hop, h1, h2, h3, h4⟩
          exact ⟨op, List.mem_cons_of_mem _ hop, h1, h2, h3, h4⟩
        · rintro ⟨op, hop, h1, h2, h3, h4⟩
          rcases List.mem_cons.mp hop with hoe | hop₂
          · rw [hoe] at h2; rw [h2] at hc'; cases hc'
          · exact ⟨op, hop₂, h1, h2, h3, h4⟩

theorem getCRDNames_nodup (σ : String → Bool) : ∀ ops : List String,
    ops.Nodup → (SDKHelper.getCRDNames σ ops).Nodup
  | [], _ => by simp [SDKHelper.getCRDNames]
  | opName :: rest, hnd => by
    obtain ⟨hnm, hnd'⟩ := List.nodup_cons.mp hnd
    simp only [SDKHelper.getCRDNames]
    by_cases hb : goHasPrefix opName "CreateBatch" = true
    · simp only [hb, if_true]
      exact getCRDNames_nodup σ rest hnd'
    · by_cases hc : goHasPrefix opName "Create" = true
      · by_cases hσ : σ (goTrimPrefix opName "Create") = true
        · simp only [hb, hc, hσ, if_true, if_false, Bool.false_eq_true]
          refine List.nodup_cons.mpr ⟨?_, getCRDNames_nodup σ rest hnd'⟩
          intro hmem
          obtain ⟨op, hop, h1, h2, h3, h4⟩ := (mem_getCRDNames σ _ rest).mp hmem
          have he1 := create_op_eq h2 h4
          have he2 := create_op_eq hc rfl
          rw [← he2] at he1
          rw [he1] at hop
          exact hnm hop
        · simp only [hb, hc, hσ, if_true, if_false, Bool.false_eq_true]
          exact getCRDNames_nodup σ rest hnd'
      · simp only [hb, hc, if_false, Bool.false_eq_true]
        exact getCRDNames_nodup σ rest hnd'

theorem appendResources_eq (σ : String → Bool) : ∀ (s ops : List String),
    ApiUtil.appendResources σ s ops = s ++ SDKHelper.getCRDNames σ ops
  | s, [] => by simp [ApiUtil.appendResources, SDKHelper.getCRDNames]
  | s, opName :: rest => by
    simp only [ApiUtil.appendResources, SDKHelper.getCRDNames]
    by_cases hb : goHasPrefix opName "CreateBatch" = true
    · simp [hb, appendResources_eq σ s rest]
    · by_cases hc : goHasPrefix opName "Create" = true
      · by_cases hσ : σ (goTrimPrefix opName "Create") = true
        · simp [hb, hc, hσ, appendResources_eq σ (s ++ [goTrimPrefix opName "Create"]) rest]
        · simp [hb, hc, hσ, appendResources_eq σ s rest]
      · simp [hb, hc, appendResources_eq σ s rest]

theorem collectVersions_ok : ∀ entries : List SDKHelper.DirEntry,
    (∀ e ∈ entries, e.isDir = true) →
    SDKHelper.collectVersions entries = Except.ok (entries.map SDKHelper.DirEntry.name)
  | [], _ => rfl
  | e :: rest, h => by
    have he : e.isDir = true := h e (List.mem_cons_self e rest)
    have ih := collectVersions_ok rest (fun x hx => h x (List.mem_cons_of_mem _ hx))
    simp [SDKHelper.collectVersions, he, ih, Except.map]

/-! ## Claim theorems: model locator and resource-name derivation -/

/-- Claim C1: for every service whose model directory listing is nonempty and
consists of directories, findModelPath called with no explicit version returns
the api-2.json path of the lexicographically smallest version string (so with
one version it returns that version, and with several it returns the
smallest). -/
theorem findModelPath_selects_smallest_version
    (sdkDir name : String) (entries : List SDKHelper.DirEntry)
    (hne : entries ≠ [])
    (hdir : ∀ e ∈ entries, e.isDir = true) :
    ∃ v, SDKHelper.findModelPath sdkDir name "" entries
          = Except.ok (SDKHelper.modelFilePath sdkDir name v)
        ∧ v ∈ entries.map SDKHelper.DirEntry.name
        ∧ ∀ w ∈ entries.map SDKHelper.DirEntry.name, strLe v w = true := by
  have hcoll := collectVersions_ok entries hdir
  have hnames : entries.map SDKHelper.DirEntry.name ≠ [] := by
    intro h
    exact hne (List.map_eq_nil_iff.mp h)
  have hget : SDKHelper.getAPIVersions entries
      = Except.ok (entries.map SDKHelper.DirEntry.name) := by
    simp [SDKHelper.getAPIVersions, hcoll, hnames]
  obtain ⟨v, vs, hsort⟩ : ∃ v vs,
      sortStrings (entries.map SDKHelper.DirEntry.name) = v :: vs := by
    cases hs : sortStrings (entries.map SDKHelper.DirEntry.name) with
    | nil =>
      exfalso
      obtain ⟨x, hx⟩ := List.exists_mem_of_ne_nil _ hnames
      have hx₂ := (mem_sortStrings x (entries.map SDKHelper.DirEntry.name)).mpr hx
      rw [hs] at hx₂
      cases hx₂
    | cons v vs => exact ⟨v, vs, rfl⟩
  have hfirst : SDKHelper.firstAPIVersion entries = Except.ok v := by
    simp [SDKHelper.firstAPIVersion, hget, hsort]
  refine ⟨v, ?_, ?_, ?_⟩
  · simp [SDKHelper.findModelPath, hfirst]
  · have hv : v ∈ sortStrings (entries.map SDKHelper.DirEntry.name) := by
      rw [hsort]
      exact List.mem_cons_self v vs
    exact (mem_sortStrings v _).mp hv
  · intro w hw
    have hw₂ : w ∈ sortStrings (entries.map SDKHelper.DirEntry.name) :=
      (mem_sortStrings w _).mpr hw
    rw [hsort] at hw₂
    rcases List.mem_cons.mp hw₂ with hwe | hw₃
    · rw [hwe]
      exact strLe_refl v
    · have hp := sortStrings_pairwise (entries.map SDKHelper.DirEntry.name)
      rw [hsort] at hp
      exact (List.pairwise_cons.mp hp).1 w hw₃

/-- Witness for C1 at a concrete two-version listing: the selected version is
the lexicographically smaller one. -/
theorem findModelPath_selects_smallest_version_witness :
    (([⟨"2015-01-01", true⟩, ⟨"2012-10-03", true⟩] : List SDKHelper.DirEntry) ≠ []
      ∧ ∀ e ∈ ([⟨"2015-01-01", true⟩, ⟨"2012-10-03", true⟩] : List SDKHelper.DirEntry),
          e.isDir = true)
    ∧ ∃ v, SDKHelper.findModelPath "/sdk" "widgets" ""
            [⟨"2015-01-01", true⟩, ⟨"2012-10-03", true⟩]
          = Except.ok (SDKHelper.modelFilePath "/sdk" "widgets" v)
        ∧ v ∈ ([⟨"2015-01-01", true⟩, ⟨"2012-10-03", true⟩]
            : List SDKHelper.DirEntry).map SDKHelper.DirEntry.name
        ∧ ∀ w ∈ ([⟨"2015-01-01", true⟩, ⟨"2012-10-03", true⟩]
            : List SDKHelper.DirEntry).map SDKHelper.DirEntry.name, strLe v w = true :=
  ⟨⟨by decide, by decide⟩,
    findModelPath_selects_smallest_version "/sdk" "widgets"
      [⟨"2015-01-01", true⟩, ⟨"2012-10-03", true⟩] (by decide) (by decide)⟩

/-- Claim C2: over the catalog [CreateWidget, CreateBatchWidgets, CreateThings,
DescribeWidget], with Widget classified singular and Things classified plural,
the derivation yields exactly [Widget]: batch operations and non-create
operations are skipped, the Create prefix is stripped, plural candidates are
dropped, and catalog order is preserved.  Both the getCRDNames variant and the
appending modelAPI loop of apiutil.go (run from an empty slice) agree. -/
theorem getCRDNames_example_catalog (σ : String → Bool)
    (hW : σ "Widget" = true) (hT : σ "Things" = false) :
    SDKHelper.getCRDNames σ
        ["CreateWidget", "CreateBatchWidgets", "CreateThings", "DescribeWidget"]
      = ["Widget"]
    ∧ ApiUtil.appendResources σ []
        ["CreateWidget", "CreateBatchWidgets", "CreateThings", "DescribeWidget"]
      = ["Widget"] := by
  constructor
  · simp [SDKHelper.getCRDNames, goHasPrefix, goTrimPrefix, hW, hT]
  · rw [appendResources_eq]
    simp [SDKHelper.getCRDNames, goHasPrefix, goTrimPrefix, hW, hT]

/-- Witness for C2 with the concrete singular test that classifies exactly
Widget as singular. -/
theorem getCRDNames_example_catalog_witness :
    ((fun s => s == "Widget") "Widget" = true
      ∧ (fun s => s == "Widget") "Things" = false)
    ∧ (SDKHelper.getCRDNames (fun s => s == "Widget")
          ["CreateWidget", "CreateBatchWidgets", "CreateThings", "DescribeWidget"]
        = ["Widget"]
      ∧ ApiUtil.appendResources (fun s => s == "Widget") []
          ["CreateWidget", "CreateBatchWidgets", "CreateThings", "DescribeWidget"]
        = ["Widget"]) :=
  ⟨⟨by decide, by decide⟩,
    getCRDNames_example_catalog (fun s => s == "Widget") (by decide) (by decide)⟩

/-- Counterexample for claim C6: the code contains no rejection of the empty
candidate.  An operation named exactly Create strips to the empty string,
which is handed to the singularity check; with a check that classifies the
empty string as singular (as the go-pluralize library does), the empty string
appears in the derived list. -/
theorem getCRDNames_empty_candidate_counterexample :
    "" ∈ SDKHelper.getCRDNames (fun _ => true) ["Create"] := by decide

/-- Claim C6 as amended: getCRDNames applies no explicit empty-candidate
guard and cannot crash (the check is a total function); the empty string
appears in the derived list exactly when the catalog contains the bare
operation name Create and the pluralization check classifies the empty string
as singular. -/
theorem getCRDNames_empty_candidate_iff (σ : String → Bool) (ops : List String) :
    "" ∈ SDKHelper.getCRDNames σ ops ↔ (σ "" = true ∧ "Create" ∈ ops) := by
  rw [mem_getCRDNames]
  constructor
  · rintro ⟨op, hop, h1, h2, h3, h4⟩
    have hd := create_op_eq h2 h4
    have hop_eq : op = "Create" := by
      rw [hd]
      decide
    rw [hop_eq] at hop
    exact ⟨h3, hop⟩
  · rintro ⟨hσ, hc⟩
    exact ⟨"Create", hc, by decide, by decide, hσ, by decide⟩

/-- Counterexample for claim C7: the code performs no deduplication.  A
catalog in which the same creation operation name occurs at two positions
yields the stripped candidate twice. -/
theorem getCRDNames_duplicate_op_counterexample :
    SDKHelper.getCRDNames (fun s => s == "Widget") ["CreateWidget", "CreateWidget"]
        = ["Widget", "Widget"]
    ∧ (SDKHelper.getCRDNames (fun s => s == "Widget")
        ["CreateWidget", "CreateWidget"]).count "Widget" = 2 := by
  constructor
  · decide
  · decide

/-- Claim C7 as amended: the code has no deduplication step, but for catalogs
without repeated operation names (the guaranteed shape) stripping the Create
prefix is injective, so every derived candidate appears exactly once, in
catalog order. -/
theorem getCRDNames_candidate_once (σ : String → Bool) (ops : List String)
    (hnd : ops.Nodup) (r : String) (hr : r ∈ SDKHelper.getCRDNames σ ops) :
    (SDKHelper.getCRDNames σ ops).count r = 1 :=
  List.count_eq_one_of_mem (getCRDNames_nodup σ ops hnd) hr

/-- Witness for the amended C7 at a concrete duplicate-free catalog. -/
theorem getCRDNames_candidate_once_witness :
    (["CreateWidget", "DescribeWidget"] : List String).Nodup
    ∧ "Widget" ∈ SDKHelper.getCRDNames (fun s => s == "Widget")
        ["CreateWidget", "DescribeWidget"]
    ∧ (SDKHelper.getCRDNames (fun s => s == "Widget")
        ["CreateWidget", "DescribeWidget"]).count "Widget" = 1 :=
  ⟨by decide, by decide,
    getCRDNames_candidate_once (fun s => s == "Widget")
      ["CreateWidget", "DescribeWidget"] (by decide) "Widget" (by decide)⟩

/-- Claim C10: the derived resource names accumulate in a package-level slice
that nothing resets: running the modelAPI appending loop a second time starts
from the state the first run left, so the state after the second derivation is
the state after the first with the second derivation's names appended. -/
theorem appendResources_accumulates (σ : String → Bool)
    (init ops₁ ops₂ : List String) :
    ApiUtil.appendResources σ (ApiUtil.appendResources σ init ops₁) ops₂
      = ApiUtil.appendResources σ init ops₁ ++ SDKHelper.getCRDNames σ ops₂ :=
  appendResources_eq σ (ApiUtil.appendResources σ init ops₁) ops₂

/-! ## Helper lemmas on the render loop -/

theorem fileActions_dryRun {cfg : Generate.RenderConfig} (hdry : cfg.optDryRun = true)
    (cd : String) (f : Generate.TemplateFile) (buf : String) :
    Generate.fileActions cfg cd f buf
      = if Generate.modeSelected cfg f then
          [Generate.Action.print f.path (trimSpace buf)]
        else [] := by
  by_cases hex : cfg.optExistingController = true
  · by_cases hupd : Generate.isUpdateFile f.path = true
    · simp [Generate.fileActions, Generate.modeSelected, hdry, hex, hupd]
    · simp [Generate.fileActions, Generate.modeSelected, hdry, hex, hupd]
  · simp [Generate.fileActions, Generate.modeSelected, hdry, hex]

theorem write_not_mem_fileActions {cfg : Generate.RenderConfig}
    (hdry : cfg.optDryRun = true) (cd : String) (f : Generate.TemplateFile)
    (buf p c : String) :
    Generate.Action.write p c ∉ Generate.fileActions cfg cd f buf := by
  rw [fileActions_dryRun hdry]
  by_cases hsel : Generate.modeSelected cfg f = true
  · simp [hsel]
  · simp [hsel]

/-! ## Claim theorems: render loop configuration and dry run -/

/-- Claim C3 (divergence witness): generateTemplates performs no validation of
the output path.  A run configured with the dry-run flag unset and an empty
output path does not fail before reading templates: the template is parsed and
rendered, and the rendered file is written to the path obtained by joining the
empty output path with the stripped template path (here an absolute root
path), with no configuration error anywhere in the run. -/
theorem generateTemplates_empty_output_no_config_check :
    Generate.generateTemplates ⟨"", false, false⟩
        ⟨"ec2", "ec2", "EC2", "Amazon EC2", ["Widget"], "v1.42.0", "v0.16.0"⟩
        "/work"
        [⟨"/work/template/README.md.tpl", [Generate.Tok.lit "hello"]⟩]
      = ([Generate.Action.write "/README.md" "hello"], none) := by
  decide

/-- Counterexample for claim C4: in the existing-controller mode a dry run
silently skips a template file outside the allow-list: the file is enumerated
and rendered, yet its rendered content is not printed (and nothing is
written), so a dry run does not print every enumerated file. -/
theorem generateTemplates_dryRun_skips_counterexample :
    (Generate.generateTemplates ⟨"out", true, true⟩
        ⟨"ec2", "ec2", "EC2", "Amazon EC2", ["Widget"], "v1.42.0", "v0.16.0"⟩
        "/work"
        [⟨"/work/template/cmd/main.go.tpl", [Generate.Tok.lit "package main"]⟩]
      = ([], none))
    ∧ (⟨"out", true, true⟩ : Generate.RenderConfig).optDryRun = true := by
  constructor
  · decide
  · rfl

/-- Claim C4 as amended: with the dry-run flag set, no write action is ever
emitted, for any configuration, context and template tree; and when the run
succeeds the emitted trace is exactly one per-file print (header naming the
file, then the trimmed rendered body) for every file selected by the active
mode — every enumerated file in the fresh mode, and exactly the allow-listed
files in the existing-controller mode — in catalog order. -/
theorem generateTemplates_dryRun_no_write
    (cfg : Generate.RenderConfig) (vars : Generate.metaVars) (cd : String)
    (files : List Generate.TemplateFile) (hdry : cfg.optDryRun = true) :
    (∀ p c, Generate.Action.write p c ∉ (Generate.generateTemplates cfg vars cd files).1)
    ∧ ((Generate.generateTemplates cfg vars cd files).2 = none →
        (Generate.generateTemplates cfg vars cd files).1
          = Generate.printsFor cfg vars files) := by
  induction files with
  | nil =>
    refine ⟨?_, ?_⟩
    · intro p c
      simp [Generate.generateTemplates]
    · intro _
      rfl
  | cons f rest ih =>
    cases hex : Generate.executeTemplate (Generate.lookupMetaVars vars) f.toks with
    | error e =>
      refine ⟨?_, ?_⟩
      · intro p c
        simp [Generate.generateTemplates, hex]
      · intro h
        simp [Generate.generateTemplates, hex] at h
    | ok buf =>
      refine ⟨?_, ?_⟩
      · intro p c hmem
        simp only [Generate.generateTemplates, hex, List.mem_append] at hmem
        rcases hmem with hmem | hmem
        · exact write_not_mem_fileActions hdry cd f buf p c hmem
        · exact ih.1 p c hmem
      · intro h
        have h₂ : (Generate.generateTemplates cfg vars cd rest).2 = none := by
          simpa [Generate.generateTemplates, hex] using h
        simp only [Generate.generateTemplates, hex, Generate.printsFor,
          fileActions_dryRun hdry, ih.2 h₂]
        by_cases hsel : Generate.modeSelected cfg f = true
        · simp [hsel]
        · simp [hsel]

/-- Witness for the amended C4: a concrete fresh-mode dry run prints both
files with their headers and writes nothing. -/
theorem generateTemplates_dryRun_no_write_witness :
    (⟨"out", true, false⟩ : Generate.RenderConfig).optDryRun = true
    ∧ ((∀ p c, Generate.Action.write p c ∉
          (Generate.generateTemplates ⟨"out", true, false⟩
            ⟨"ec2", "ec2", "EC2", "Amazon EC2", ["Widget"], "v1.42.0", "v0.16.0"⟩
            "/work"
            [⟨"/work/template/README.md.tpl", [Generate.Tok.lit "hello"]⟩,
             ⟨"/work/template/cmd/main.go.tpl", [Generate.Tok.lit "package main"]⟩]).1)
      ∧ ((Generate.generateTemplates ⟨"out", true, false⟩
            ⟨"ec2", "ec2", "EC2", "Amazon EC2", ["Widget"], "v1.42.0", "v0.16.0"⟩
            "/work"
            [⟨"/work/template/README.md.tpl", [Generate.Tok.lit "hello"]⟩,
             ⟨"/work/template/cmd/main.go.tpl", [Generate.Tok.lit "package main"]⟩]).2 = none →
          (Generate.generateTemplates ⟨"out", true, false⟩
            ⟨"ec2", "ec2", "EC2", "Amazon EC2", ["Widget"], "v1.42.0", "v0.16.0"⟩
            "/work"
            [⟨"/work/template/README.md.tpl", [Generate.Tok.lit "hello"]⟩,
             ⟨"/work/template/cmd/main.go.tpl", [Generate.Tok.lit "package main"]⟩]).1
            = Generate.printsFor ⟨"out", true, false⟩
                ⟨"ec2", "ec2", "EC2", "Amazon EC2", ["Widget"], "v1.42.0", "v0.16.0"⟩
                [⟨"/work/template/README.md.tpl", [Generate.Tok.lit "hello"]⟩,
                 ⟨"/work/template/cmd/main.go.tpl", [Generate.Tok.lit "package main"]⟩])) :=
  ⟨rfl,
    generateTemplates_dryRun_no_write ⟨"out", true, false⟩
      ⟨"ec2", "ec2", "EC2", "Amazon EC2", ["Widget"], "v1.42.0", "v0.16.0"⟩
      "/work"
      [⟨"/work/template/README.md.tpl", [Generate.Tok.lit "hello"]⟩,
       ⟨"/work/template/cmd/main.go.tpl", [Generate.Tok.lit "package main"]⟩]
      rfl⟩

/-- Claim C5: in the existing-controller mode every write action the render
loop emits stems from an allow-listed template file (README.md template or a
file whose path mentions OWNERS), and its destination is the writeFiles path
of that file; no file outside the allow-list is ever written, whatever else
the template tree contains. -/
theorem generateTemplates_existing_writes_allowlisted
    (cfg : Generate.RenderConfig) (vars : Generate.metaVars) (cd : String)
    (files : List Generate.TemplateFile)
    (hex : cfg.optExistingController = true) (p c : String)
    (hmem : Generate.Action.write p c ∈ (Generate.generateTemplates cfg vars cd files).1) :
    ∃ f, f ∈ files ∧ Generate.isUpdateFile f.path = true
      ∧ p = Generate.writeDest cd cfg.optOutputPath f.path := by
  induction files with
  | nil =>
    simp [Generate.generateTemplates] at hmem
  | cons f rest ih =>
    cases hexe : Generate.executeTemplate (Generate.lookupMetaVars vars) f.toks with
    | error e =>
      rw [Generate.generateTemplates, hexe] at hmem
      simp at hmem
    | ok buf =>
      rw [Generate.generateTemplates, hexe] at hmem
      simp only [List.mem_append] at hmem
      rcases hmem with hmem | hmem
      · simp only [Generate.fileActions, hex, if_true] at hmem
        by_cases hupd : Generate.isUpdateFile f.path = true
        · cases hdry : cfg.optDryRun with
          | true => simp [hdry, hupd] at hmem
          | false =>
            simp [hdry, hupd] at hmem
            exact ⟨f, List.mem_cons_self f rest, hupd, hmem.1⟩
        · simp [hupd] at hmem
      · obtain ⟨g, hg, hg₂, hg₃⟩ := ih hmem
        exact ⟨g, List.mem_cons_of_mem _ hg, hg₂, hg₃⟩

/-- Witness for C5: a concrete existing-controller run over a tree holding an
allow-listed file and a source file writes only the allow-listed destination. -/
theorem generateTemplates_existing_writes_allowlisted_witness :
    (⟨"out", false, true⟩ : Generate.RenderConfig).optExistingController = true
    ∧ Generate.Action.write "out/README.md" "hello"
        ∈ (Generate.generateTemplates ⟨"out", false, true⟩
            ⟨"ec2", "ec2", "EC2", "Amazon EC2", ["Widget"], "v1.42.0", "v0.16.0"⟩
            "/work"
            [⟨"/work/template/README.md.tpl", [Generate.Tok.lit "hello"]⟩,
             ⟨"/work/template/cmd/main.go.tpl", [Generate.Tok.lit "package main"]⟩]).1
    ∧ ∃ f, f ∈ [(⟨"/work/template/README.md.tpl", [Generate.Tok.lit "hello"]⟩ : Generate.TemplateFile),
                ⟨"/work/template/cmd/main.go.tpl", [Generate.Tok.lit "package main"]⟩]
        ∧ Generate.isUpdateFile f.path = true
        ∧ "out/README.md" = Generate.writeDest "/work" "out" f.path :=
  ⟨rfl, by decide,
    generateTemplates_existing_writes_allowlisted ⟨"out", false, true⟩
      ⟨"ec2", "ec2", "EC2", "Amazon EC2", ["Widget"], "v1.42.0", "v0.16.0"⟩
      "/work"
      [⟨"/work/template/README.md.tpl", [Generate.Tok.lit "hello"]⟩,
       ⟨"/work/template/cmd/main.go.tpl", [Generate.Tok.lit "package main"]⟩]
      rfl "out/README.md" "hello" (by decide)⟩

/-! ## Claim theorems: template failure and materialization -/

/-- Counterexample for claim C8: writes are not transactional.  When an
undefined-field template follows a well-formed one, the run fails with the
template error, yet the earlier file has already been written: the failing
run does produce an output file. -/
theorem generateTemplates_write_before_failure_counterexample :
    Generate.generateTemplates ⟨"out", false, false⟩
        ⟨"ec2", "ec2", "EC2", "Amazon EC2", ["Widget"], "v1.42.0", "v0.16.0"⟩
        "/work"
        [⟨"/work/template/a.txt.tpl", [Generate.Tok.lit "alpha"]⟩,
         ⟨"/work/template/b.txt.tpl", [Generate.Tok.var "Missing"]⟩]
      = ([Generate.Action.write "out/a.txt" "alpha"],
         some "/work/template/b.txt.tpl: undefined field Missing") := by
  decide

/-- Claim C8 as amended: a template referencing an undefined context field
fails the whole run with the template error naming the offending file; the
failing file's destination is not written and no later file is processed —
the run's actions are exactly those of the files preceding the failure, whose
writes remain (non-transactional partial update). -/
theorem generateTemplates_aborts_at_first_failure
    (cfg : Generate.RenderConfig) (vars : Generate.metaVars) (cd : String)
    (pre post : List Generate.TemplateFile) (f : Generate.TemplateFile) (e : String)
    (hpre : ∀ g ∈ pre, ∃ b,
      Generate.executeTemplate (Generate.lookupMetaVars vars) g.toks = Except.ok b)
    (hf : Generate.executeTemplate (Generate.lookupMetaVars vars) f.toks
      = Except.error e) :
    Generate.generateTemplates cfg vars cd (pre ++ f :: post)
      = ((Generate.generateTemplates cfg vars cd pre).1,
         some (f.path ++ ": undefined field " ++ e)) := by
  revert hpre
  induction pre with
  | nil =>
    intro _
    simp [Generate.generateTemplates, hf]
  | cons g pre' ih =>
    intro hpre
    obtain ⟨b, hb⟩ := hpre g (List.mem_cons_self g pre')
    have ih₂ := ih (fun x hx => hpre x (List.mem_cons_of_mem _ hx))
    have lhs : Generate.generateTemplates cfg vars cd ((g :: pre') ++ f :: post)
        = (Generate.fileActions cfg cd g b
            ++ (Generate.generateTemplates cfg vars cd (pre' ++ f :: post)).1,
           (Generate.generateTemplates cfg vars cd (pre' ++ f :: post)).2) := by
      rw [List.cons_append]
      simp [Generate.generateTemplates, hb]
    have rhs : Generate.generateTemplates cfg vars cd (g :: pre')
        = (Generate.fileActions cfg cd g b
            ++ (Generate.generateTemplates cfg vars cd pre').1,
           (Generate.generateTemplates cfg vars cd pre').2) := by
      simp [Generate.generateTemplates, hb]
    rw [lhs, ih₂, rhs]

/-- Witness for the amended C8 at a concrete two-file tree whose second file
references an undefined field. -/
theorem generateTemplates_aborts_at_first_failure_witness :
    (∀ g ∈ [(⟨"/work/template/a.txt.tpl", [Generate.Tok.lit "alpha"]⟩
        : Generate.TemplateFile)],
      ∃ b, Generate.executeTemplate
        (Generate.lookupMetaVars
          ⟨"ec2", "ec2", "EC2", "Amazon EC2", ["Widget"], "v1.42.0", "v0.16.0"⟩)
        g.toks = Except.ok b)
    ∧ Generate.executeTemplate
        (Generate.lookupMetaVars
          ⟨"ec2", "ec2", "EC2", "Amazon EC2", ["Widget"], "v1.42.0", "v0.16.0"⟩)
        [Generate.Tok.var "Missing"] = Except.error "Missing"
    ∧ Generate.generateTemplates ⟨"out", false, false⟩
        ⟨"ec2", "ec2", "EC2", "Amazon EC2", ["Widget"], "v1.42.0", "v0.16.0"⟩
        "/work"
        ([⟨"/work/template/a.txt.tpl", [Generate.Tok.lit "alpha"]⟩]
          ++ (⟨"/work/template/b.txt.tpl", [Generate.Tok.var "Missing"]⟩
              : Generate.TemplateFile) :: [])
      = ((Generate.generateTemplates ⟨"out", false, false⟩
            ⟨"ec2", "ec2", "EC2", "Amazon EC2", ["Widget"], "v1.42.0", "v0.16.0"⟩
            "/work"
            [⟨"/work/template/a.txt.tpl", [Generate.Tok.lit "alpha"]⟩]).1,
         some ((⟨"/work/template/b.txt.tpl", [Generate.Tok.var "Missing"]⟩
            : Generate.TemplateFile).path ++ ": undefined field " ++ "Missing")) :=
  ⟨fun g hg => by
      rw [List.mem_singleton] at hg
      rw [hg]
      exact ⟨"alpha", rfl⟩,
   rfl,
   generateTemplates_aborts_at_first_failure ⟨"out", false, false⟩
     ⟨"ec2", "ec2", "EC2", "Amazon EC2", ["Widget"], "v1.42.0", "v0.16.0"⟩
     "/work"
     [⟨"/work/template/a.txt.tpl", [Generate.Tok.lit "alpha"]⟩] []
     ⟨"/work/template/b.txt.tpl", [Generate.Tok.var "Missing"]⟩ "Missing"
     (fun g hg => by
       rw [List.mem_singleton] at hg
       rw [hg]
       exact ⟨"alpha", rfl⟩)
     rfl⟩

theorem applyWrites_eq : ∀ (ws : List (String × String)) (fs : Generate.FS) (p : String),
    (∀ c, Generate.lastWrite p ws = some c → Generate.applyWrites fs ws p = some c)
    ∧ (Generate.lastWrite p ws = none → Generate.applyWrites fs ws p = fs p)
  | [], fs, p => by
    constructor
    · intro c h
      cases h
    · intro _
      rfl
  | (q, c) :: rest, fs, p => by
    constructor
    · intro c₀ h
      rw [Generate.lastWrite] at h
      cases hlw : Generate.lastWrite p rest with
      | some c₂ =>
        rw [hlw] at h
        injection h with h₂
        rw [Generate.applyWrites, ← h₂]
        exact (applyWrites_eq rest (Generate.writeFile fs q c) p).1 c₂ hlw
      | none =>
        rw [hlw] at h
        by_cases hpq : p = q
        · rw [if_pos hpq] at h
          cases h
          rw [Generate.applyWrites,
            (applyWrites_eq rest (Generate.writeFile fs q c) p).2 hlw,
            Generate.writeFile, if_pos hpq]
        · rw [if_neg hpq] at h
          cases h
    · intro h
      rw [Generate.lastWrite] at h
      cases hlw : Generate.lastWrite p rest with
      | some c₂ =>
        rw [hlw] at h
        cases h
      | none =>
        rw [hlw] at h
        by_cases hpq : p = q
        · rw [if_pos hpq] at h
          cases h
        · rw [Generate.applyWrites,
            (applyWrites_eq rest (Generate.writeFile fs q c) p).2 hlw,
            Generate.writeFile, if_neg hpq]

/-- Claim C9: materializing the same context against the same template tree
twice in succession converges: each write replaces the destination content
unconditionally, so applying the run's writes a second time over the
filesystem the first application produced changes nothing. -/
theorem generateTemplates_materialize_idempotent
    (cfg : Generate.RenderConfig) (vars : Generate.metaVars) (cd : String)
    (files : List Generate.TemplateFile) (_hndry : cfg.optDryRun = false)
    (fs : Generate.FS) :
    Generate.applyWrites
        (Generate.applyWrites fs
          (Generate.writesOf (Generate.generateTemplates cfg vars cd files).1))
        (Generate.writesOf (Generate.generateTemplates cfg vars cd files).1)
      = Generate.applyWrites fs
          (Generate.writesOf (Generate.generateTemplates cfg vars cd files).1) := by
  funext p
  cases hlw : Generate.lastWrite p
      (Generate.writesOf (Generate.generateTemplates cfg vars cd files).1) with
  | some c =>
    rw [(applyWrites_eq _ _ p).1 c hlw, (applyWrites_eq _ _ p).1 c hlw]
  | none =>
    rw [(applyWrites_eq _ _ p).2 hlw]

/-- Witness for C9 at a concrete non-dry run over an initially empty
filesystem. -/
theorem generateTemplates_materialize_idempotent_witness :
    (⟨"out", false, false⟩ : Generate.RenderConfig).optDryRun = false
    ∧ Generate.applyWrites
        (Generate.applyWrites (fun _ => none)
          (Generate.writesOf (Generate.generateTemplates ⟨"out", false, false⟩
            ⟨"ec2", "ec2", "EC2", "Amazon EC2", ["Widget"], "v1.42.0", "v0.16.0"⟩
            "/work"
            [⟨"/work/template/README.md.tpl", [Generate.Tok.lit "hello"]⟩]).1))
        (Generate.writesOf (Generate.generateTemplates ⟨"out", false, false⟩
          ⟨"ec2", "ec2", "EC2", "Amazon EC2", ["Widget"], "v1.42.0", "v0.16.0"⟩
          "/work"
          [⟨"/work/template/README.md.tpl", [Generate.Tok.lit "hello"]⟩]).1)
      = Generate.applyWrites (fun _ => none)
          (Generate.writesOf (Generate.generateTemplates ⟨"out", false, false⟩
            ⟨"ec2", "ec2", "EC2", "Amazon EC2", ["Widget"], "v1.42.0", "v0.16.0"⟩
            "/work"
            [⟨"/work/template/README.md.tpl", [Generate.Tok.lit "hello"]⟩]).1) :=
  ⟨rfl,
    generateTemplates_materialize_idempotent ⟨"out", false, false⟩
      ⟨"ec2", "ec2", "EC2", "Amazon EC2", ["Widget"], "v1.42.0", "v0.16.0"⟩
      "/work"
      [⟨"/work/template/README.md.tpl", [Generate.Tok.lit "hello"]⟩]
      rfl (fun _ => none)⟩
